import Mathlib

/-!
Verification of the user-management service in
`src/infrastructure/db/services/user.py`.

The service class `UserService` orchestrates CRUD operations over a `User`
entity through a unit-of-work / repository abstraction.  The repository
(`uow.user`) is an external collaborator whose code is not part of the
source tree; its operations are modelled from the specification (each such
definition carries a doc comment starting `Modelled from the spec:`).
Storage is modelled as a list of `User` records in insertion order; the
one-way password hashing function is an explicit parameter `hash`.

Each service operation returns an `OpResult`: the returned value or the
raised exception, the durable storage state after the call, and the trace
of repository / commit / raise events in the order the source executes
them, which lets commit-versus-raise ordering be stated precisely.
-/

/-- A persisted user entity: system-assigned integer id, email, and the
hashed password.  The entity stores no plaintext password field. -/
structure User where
  id : Nat
  email : String
  hashed_password : String
  deriving DecidableEq, Repr

/-- Input payload of `create` (`UserCreate`): an email and a plaintext
password. -/
structure UserCreate where
  email : String
  password : String
  deriving DecidableEq, Repr

/-- Input payload of `update` (`UserUpdate`): optional plaintext password
and optional email; `none` models a field not explicitly set
(pydantic exclude-unset semantics). -/
structure UserUpdate where
  password : Option String
  email : Option String
  deriving DecidableEq, Repr

/-- The field bag passed to the storage create call: the create payload
with the plaintext password field stripped and a hashed password merged
in (`_schema` in `UserService.create`). -/
structure CreateDict where
  email : String
  hashed_password : String
  deriving DecidableEq, Repr

/-- The field bag computed (but, in the source, never passed to storage)
in the password branch of `UserService.update`: the explicitly-set fields
minus the plaintext password, plus a hashed password. -/
structure UpdateDict where
  email : Option String
  hashed_password : Option String
  deriving DecidableEq, Repr

/-- Filter descriptor (`UserIDSpecification` / `UserEmailSpecification`):
an immutable value object carrying the lookup key. -/
inductive Spec where
  | byId (id : Nat)
  | byEmail (email : String)
  deriving DecidableEq, Repr

/-- Whether a user matches a filter descriptor. -/
def matchesSpec : Spec → User → Bool
  | Spec.byId i, u => u.id == i
  | Spec.byEmail e, u => u.email == e

/-- The two domain exceptions raised by the service
(`UserNotFoundException`, which carries the filter descriptor that failed
to match, and `UserAlreadyExistsException`). -/
inductive Exc where
  | UserNotFoundException (spec : Spec)
  | UserAlreadyExistsException
  deriving DecidableEq, Repr

/-- Observable events of one service call, in execution order. -/
inductive Event where
  | repoGet (spec : Spec)
  | repoGetRefreshSession (spec : Spec)
  | repoGetMulti (skip limit : Nat)
  | repoCreate
  | repoUpdate (spec : Spec)
  | repoDelete (spec : Spec)
  | commit
  | raised
  deriving DecidableEq, Repr

instance {ε α : Type} [DecidableEq ε] [DecidableEq α] :
    DecidableEq (Except ε α) := fun a b =>
  match a, b with
  | Except.ok x, Except.ok y =>
      if h : x = y then isTrue (by rw [h])
      else isFalse (by intro hc; cases hc; exact h rfl)
  | Except.error x, Except.error y =>
      if h : x = y then isTrue (by rw [h])
      else isFalse (by intro hc; cases hc; exact h rfl)
  | Except.ok _, Except.error _ => isFalse (by intro hc; cases hc)
  | Except.error _, Except.ok _ => isFalse (by intro hc; cases hc)

/-- Outcome of one service call: the returned value or raised exception,
the durable storage state afterwards, and the event trace. -/
structure OpResult (α : Type) where
  result : Except Exc α
  db : List User
  events : List Event
  deriving DecidableEq, Repr

/-- Modelled from the spec: the repository `get` call locates the entity
matching the filter descriptor and returns it, or returns the absence
marker if none matches. -/
def repo_get (spec : Spec) (db : List User) : Option User :=
  db.find? (matchesSpec spec)

/-- Modelled from the spec: the repository `get_user_refresh_session`
call returns the matching entity (with its attached refresh-session
data, which is not modelled further) or the absence marker. -/
def repo_get_user_refresh_session (spec : Spec) (db : List User) : Option User :=
  db.find? (matchesSpec spec)

/-- Modelled from the spec: the repository `get_multi` call returns the
entities in insertion order, offset by `skip` and bounded by `limit`. -/
def repo_get_multi (skip limit : Nat) (db : List User) : List User :=
  (db.drop skip).take limit

/-- Next system-assigned id: one more than the largest id in storage. -/
def freshId (db : List User) : Nat :=
  db.foldr (fun u m => max u.id m) 0 + 1

/-- Modelled from the spec: the repository `create` call persists the
given field bag as a new entity with a fresh system-assigned id,
appended in insertion order, and returns the created entity. -/
def repo_create (d : CreateDict) (db : List User) : User × List User :=
  let u : User := ⟨freshId db, d.email, d.hashed_password⟩
  (u, db ++ [u])

/-- Apply the explicitly-set fields of an update payload to an entity.
The payload's plaintext password has no corresponding entity column and
is not applied; the entity's hashed password is not a payload field. -/
def applyUserUpdate (us : UserUpdate) (u : User) : User :=
  ⟨u.id, us.email.getD u.email, u.hashed_password⟩

/-- Modelled from the spec: the repository `update` call applies, to the
entity matching the filter, exactly the fields explicitly present in the
payload (exclude-unset semantics), leaving the others unmodified, and
returns the updated entity, or the absence marker if no entity matches. -/
def repo_update (spec : Spec) (us : UserUpdate) (db : List User) :
    Option User × List User :=
  match repo_get spec db with
  | none => (none, db)
  | some u =>
      (some (applyUserUpdate us u),
       db.map fun v => if matchesSpec spec v then applyUserUpdate us v else v)

/-- Modelled from the spec: the repository `delete` call removes the
matching rows and returns the deleted entity's last-known data, or the
absence marker if no row matched. -/
def repo_delete (spec : Spec) (db : List User) : Option User × List User :=
  match repo_get spec db with
  | none => (none, db)
  | some u => (some u, db.filter fun v => !(matchesSpec spec v))

/-- `UserService.get_by_id`: builds the id filter, gets inside the
transactional scope, commits, and only then raises `UserNotFoundException`
if the result was absent. -/
def UserService.get_by_id (db : List User) (user_id : Nat) : OpResult User :=
  let spec := Spec.byId user_id
  match repo_get spec db with
  | none =>
      ⟨Except.error (Exc.UserNotFoundException spec), db,
       [Event.repoGet spec, Event.commit, Event.raised]⟩
  | some u => ⟨Except.ok u, db, [Event.repoGet spec, Event.commit]⟩

/-- `UserService.get_user_with_refresh_session`: builds the email filter,
calls the repository inside the transactional scope, commits, and returns
the repository's result unchanged, with no absence check. -/
def UserService.get_user_with_refresh_session (db : List User) (email : String) :
    OpResult (Option User) :=
  let spec := Spec.byEmail email
  ⟨Except.ok (repo_get_user_refresh_session spec db), db,
   [Event.repoGetRefreshSession spec, Event.commit]⟩

/-- `UserService.get_all`: calls the repository `get_multi` with the given
pagination bounds (defaults `skip=0`, `limit=100`), commits, and returns
the list. -/
def UserService.get_all (db : List User) (skip : Nat := 0) (limit : Nat := 100) :
    OpResult (List User) :=
  ⟨Except.ok (repo_get_multi skip limit db), db,
   [Event.repoGetMulti skip limit, Event.commit]⟩

/-- `UserService.get_by_email`: builds the email filter, gets inside the
transactional scope, commits, and returns the entity or the absence
marker; it never raises. -/
def UserService.get_by_email (db : List User) (email : String) :
    OpResult (Option User) :=
  let spec := Spec.byEmail email
  ⟨Except.ok (repo_get spec db), db, [Event.repoGet spec, Event.commit]⟩

/-- `UserService.create`: looks the email up via `get_by_email`; if a user
was found, raises `UserAlreadyExistsException` without calling the storage
create.  Otherwise builds `_schema` (the payload minus the plaintext
password, plus the hashed password), calls the storage create with it
inside the transactional scope, commits, and returns the created user. -/
def UserService.create (hash : String → String) (db : List User)
    (create_schema : UserCreate) : OpResult User :=
  let r := UserService.get_by_email db create_schema.email
  match r.result with
  | Except.ok none =>
      let _schema : CreateDict :=
        ⟨create_schema.email, hash create_schema.password⟩
      let cu := repo_create _schema r.db
      ⟨Except.ok cu.1, cu.2, r.events ++ [Event.repoCreate, Event.commit]⟩
  | Except.ok (some _) =>
      ⟨Except.error Exc.UserAlreadyExistsException, r.db,
       r.events ++ [Event.raised]⟩
  | Except.error e => ⟨Except.error e, r.db, r.events⟩

/-- Python truthiness of `update_schema.password`: `None` and the empty
string are falsy. -/
def truthyPassword (us : UserUpdate) : Bool :=
  match us.password with
  | some p => !(p == "")
  | none => false

/-- The `_schema` field bag computed in the password branch of
`UserService.update`: the payload's explicitly-set fields minus the
plaintext password, plus the hashed password.  In the source it is
computed into a local variable and never passed to the storage update
call. -/
def update_computed_schema (hash : String → String) (us : UserUpdate) : UpdateDict :=
  ⟨us.email, some (hash (us.password.getD ""))⟩

/-- `UserService.update`: when the payload carries a (truthy) plaintext
password the source computes `_schema` (the set fields minus the plaintext
password, plus the hashed password) into a local variable — but then, in
both branches alike, passes the original `update_schema` to the storage
update call, commits, and raises `UserNotFoundException` after the scope
if the result was absent. -/
def UserService.update (hash : String → String) (db : List User)
    (user_id : Nat) (update_schema : UserUpdate) : OpResult User :=
  let spec := Spec.byId user_id
  if truthyPassword update_schema then
    let _schema : UpdateDict := update_computed_schema hash update_schema
    let r := repo_update spec update_schema db
    match r.1 with
    | none =>
        ⟨Except.error (Exc.UserNotFoundException spec), r.2,
         [Event.repoUpdate spec, Event.commit, Event.raised]⟩
    | some u => ⟨Except.ok u, r.2, [Event.repoUpdate spec, Event.commit]⟩
  else
    let r := repo_update spec update_schema db
    match r.1 with
    | none =>
        ⟨Except.error (Exc.UserNotFoundException spec), r.2,
         [Event.repoUpdate spec, Event.commit, Event.raised]⟩
    | some u => ⟨Except.ok u, r.2, [Event.repoUpdate spec, Event.commit]⟩

/-- `UserService.delete`: calls the storage delete inside the transactional
scope and, if no row matched, raises `UserNotFoundException` before the
commit call — so on that path the transaction is never committed and the
durable state is unchanged; otherwise commits and returns the deleted
entity's last-known data. -/
def UserService.delete (db : List User) (user_id : Nat) : OpResult User :=
  let spec := Spec.byId user_id
  let r := repo_delete spec db
  match r.1 with
  | none =>
      ⟨Except.error (Exc.UserNotFoundException spec), db,
       [Event.repoDelete spec, Event.raised]⟩
  | some u => ⟨Except.ok u, r.2, [Event.repoDelete spec, Event.commit]⟩

/-! ## Helper lemmas -/

/-- After filtering out every element satisfying `p`, `find? p` finds
nothing. -/
theorem find?_filter_not_eq_none {α : Type} (p : α → Bool) (l : List α) :
    (l.filter fun v => !(p v)).find? p = none := by
  induction l with
  | nil => rfl
  | cons a t ih =>
      by_cases h : p a
      · simp [List.filter_cons, h, ih]
      · simp [List.filter_cons, h, List.find?_cons, ih]

/-! ## Claim theorems -/

/-- C7: for every email, `get_by_email` never signals a failure: it
returns the repository lookup's result as a valid value, the absence
marker included, rather than raising `UserNotFoundException`. -/
theorem get_by_email_never_signals (db : List User) (email : String) :
    (UserService.get_by_email db email).result
        = Except.ok (repo_get (Spec.byEmail email) db) ∧
      ∀ e : Exc, (UserService.get_by_email db email).result ≠ Except.error e := by
  exact ⟨rfl, fun e h => by simp [UserService.get_by_email] at h⟩

/-- C10: for every email, `get_user_with_refresh_session` returns exactly
the repository's result unchanged, including the absence marker when no
user matches; it never signals `UserNotFoundException` or
`UserAlreadyExistsException`, and storage is unchanged. -/
theorem get_user_with_refresh_session_passes_through (db : List User) (email : String) :
    (UserService.get_user_with_refresh_session db email).result
        = Except.ok (repo_get_user_refresh_session (Spec.byEmail email) db) ∧
      (UserService.get_user_with_refresh_session db email).db = db ∧
      ∀ e : Exc,
        (UserService.get_user_with_refresh_session db email).result ≠ Except.error e := by
  exact ⟨rfl, rfl, fun e h => by simp [UserService.get_user_with_refresh_session] at h⟩

/-- C8: for every `skip` and `limit`, `get_all` returns the stored users
in insertion order with the first `skip` dropped and at most `limit`
kept (so at most `limit` entries); omitted arguments default to
`skip = 0`, `limit = 100`; on empty storage it returns the empty
sequence without signalling. -/
theorem get_all_pagination (db : List User) (skip limit : Nat) :
    (UserService.get_all db skip limit).result
        = Except.ok ((db.drop skip).take limit) ∧
      ((db.drop skip).take limit).length ≤ limit ∧
      UserService.get_all db = UserService.get_all db 0 100 ∧
      (UserService.get_all [] skip limit).result = Except.ok ([] : List User) := by
  refine ⟨rfl, ?_, rfl, ?_⟩
  · simp
  · simp [UserService.get_all, repo_get_multi]

/-- C1: for every email already present in storage, `create` looks the
email up first and signals `UserAlreadyExistsException`; the storage
create call is never reached (no `repoCreate` event) and the stored
state is unchanged. -/
theorem create_existing_email_signals_already_exists
    (hash : String → String) (db : List User) (cs : UserCreate) (u : User)
    (h : repo_get (Spec.byEmail cs.email) db = some u) :
    (UserService.create hash db cs).result
        = Except.error Exc.UserAlreadyExistsException ∧
      (UserService.create hash db cs).db = db ∧
      Event.repoCreate ∉ (UserService.create hash db cs).events := by
  simp [UserService.create, UserService.get_by_email, h]

theorem create_existing_email_signals_already_exists_witness :
    repo_get (Spec.byEmail "a@x.com") [⟨1, "a@x.com", "h1"⟩]
        = some ⟨1, "a@x.com", "h1"⟩ ∧
      ((UserService.create (fun s => "h:" ++ s) [⟨1, "a@x.com", "h1"⟩]
            ⟨"a@x.com", "pw"⟩).result
          = Except.error Exc.UserAlreadyExistsException ∧
        (UserService.create (fun s => "h:" ++ s) [⟨1, "a@x.com", "h1"⟩]
            ⟨"a@x.com", "pw"⟩).db = [⟨1, "a@x.com", "h1"⟩] ∧
        Event.repoCreate ∉ (UserService.create (fun s => "h:" ++ s)
            [⟨1, "a@x.com", "h1"⟩] ⟨"a@x.com", "pw"⟩).events) :=
  ⟨by decide,
   create_existing_email_signals_already_exists (fun s => "h:" ++ s)
     [⟨1, "a@x.com", "h1"⟩] ⟨"a@x.com", "pw"⟩ ⟨1, "a@x.com", "h1"⟩ (by decide)⟩

/-- C2 (bug evaluation): at a concrete failing input — one stored user
with hashed password "oldhash", an update whose payload carries the new
plaintext password "newpw" — the source computes the hashed schema into
a local (`update_computed_schema` holds the hash of "newpw") but passes
the original payload to the storage update call, so the persisted user
still carries "oldhash", not the hash of the new password. -/
theorem update_password_hash_computed_but_not_persisted :
    update_computed_schema (fun s => "h:" ++ s) ⟨some "newpw", none⟩
        = ⟨none, some ("h:" ++ "newpw")⟩ ∧
      (UserService.update (fun s => "h:" ++ s) [⟨1, "a@x.com", "oldhash"⟩] 1
          ⟨some "newpw", none⟩).result = Except.ok ⟨1, "a@x.com", "oldhash"⟩ ∧
      (UserService.update (fun s => "h:" ++ s) [⟨1, "a@x.com", "oldhash"⟩] 1
          ⟨some "newpw", none⟩).db = [⟨1, "a@x.com", "oldhash"⟩] ∧
      ("oldhash" : String) ≠ "h:" ++ "newpw" := by
  refine ⟨rfl, ?_, ?_, by decide⟩ <;> decide

/-- C3: for every create call with an email not present in storage, the
persisted record is built from the payload with the plaintext password
field removed and a hashed-password field equal to the hash of the
supplied password — hence (when the hashing function does not return its
input on this password) never equal to the plaintext — and it is
appended to storage. -/
theorem create_fresh_email_persists_hashed_password
    (hash : String → String) (db : List User) (cs : UserCreate)
    (habs : repo_get (Spec.byEmail cs.email) db = none)
    (hhash : hash cs.password ≠ cs.password) :
    ∃ u : User,
      (UserService.create hash db cs).result = Except.ok u ∧
        u.email = cs.email ∧
        u.hashed_password = hash cs.password ∧
        u.hashed_password ≠ cs.password ∧
        (UserService.create hash db cs).db = db ++ [u] := by
  refine ⟨⟨freshId db, cs.email, hash cs.password⟩, ?_, rfl, rfl, hhash, ?_⟩ <;>
    simp [UserService.create, UserService.get_by_email, habs, repo_create]

theorem create_fresh_email_persists_hashed_password_witness :
    repo_get (Spec.byEmail "b@x.com") ([] : List User) = none ∧
      ("h:" ++ "pw" : String) ≠ "pw" ∧
      ∃ u : User,
        (UserService.create (fun s => "h:" ++ s) [] ⟨"b@x.com", "pw"⟩).result
            = Except.ok u ∧
          u.email = "b@x.com" ∧
          u.hashed_password = "h:" ++ "pw" ∧
          u.hashed_password ≠ "pw" ∧
          (UserService.create (fun s => "h:" ++ s) [] ⟨"b@x.com", "pw"⟩).db
            = [] ++ [u] :=
  ⟨rfl, by decide,
   create_fresh_email_persists_hashed_password (fun s => "h:" ++ s) []
     ⟨"b@x.com", "pw"⟩ rfl (by decide)⟩

/-- C4: for every id not present in storage, `get_by_id`, `update` and
`delete` all signal `UserNotFoundException` carrying the id-filter
descriptor built from that id. -/
theorem absent_id_signals_not_found
    (hash : String → String) (db : List User) (user_id : Nat) (us : UserUpdate)
    (h : repo_get (Spec.byId user_id) db = none) :
    (UserService.get_by_id db user_id).result
        = Except.error (Exc.UserNotFoundException (Spec.byId user_id)) ∧
      (UserService.update hash db user_id us).result
        = Except.error (Exc.UserNotFoundException (Spec.byId user_id)) ∧
      (UserService.delete db user_id).result
        = Except.error (Exc.UserNotFoundException (Spec.byId user_id)) := by
  refine ⟨?_, ?_, ?_⟩ <;>
    simp [UserService.get_by_id, UserService.update, UserService.delete,
      repo_update, repo_delete, h]

theorem absent_id_signals_not_found_witness :
    repo_get (Spec.byId 2) [⟨1, "a@x.com", "h1"⟩] = none ∧
      ((UserService.get_by_id [⟨1, "a@x.com", "h1"⟩] 2).result
          = Except.error (Exc.UserNotFoundException (Spec.byId 2)) ∧
        (UserService.update (fun s => "h:" ++ s) [⟨1, "a@x.com", "h1"⟩] 2
            ⟨none, none⟩).result
          = Except.error (Exc.UserNotFoundException (Spec.byId 2)) ∧
        (UserService.delete [⟨1, "a@x.com", "h1"⟩] 2).result
          = Except.error (Exc.UserNotFoundException (Spec.byId 2))) :=
  ⟨by decide,
   absent_id_signals_not_found (fun s => "h:" ++ s) [⟨1, "a@x.com", "h1"⟩] 2
     ⟨none, none⟩ (by decide)⟩

/-- C5: for every id present in storage, `delete` returns the deleted
entity's last-known data and removes it from storage, so that a
subsequent `get_by_id` on the same id signals `UserNotFoundException`. -/
theorem delete_existing_then_get_by_id_not_found
    (db : List User) (user_id : Nat) (u : User)
    (h : repo_get (Spec.byId user_id) db = some u) :
    (UserService.delete db user_id).result = Except.ok u ∧
      (UserService.get_by_id (UserService.delete db user_id).db user_id).result
        = Except.error (Exc.UserNotFoundException (Spec.byId user_id)) := by
  have hdb : (UserService.delete db user_id).db
      = db.filter fun v => !(matchesSpec (Spec.byId user_id) v) := by
    simp [UserService.delete, repo_delete, h]
  refine ⟨by simp [UserService.delete, repo_delete, h], ?_⟩
  rw [hdb]
  simp only [UserService.get_by_id, repo_get, find?_filter_not_eq_none]

theorem delete_existing_then_get_by_id_not_found_witness :
    repo_get (Spec.byId 1) [⟨1, "a@x.com", "h1"⟩] = some ⟨1, "a@x.com", "h1"⟩ ∧
      ((UserService.delete [⟨1, "a@x.com", "h1"⟩] 1).result
          = Except.ok ⟨1, "a@x.com", "h1"⟩ ∧
        (UserService.get_by_id (UserService.delete [⟨1, "a@x.com", "h1"⟩] 1).db
            1).result
          = Except.error (Exc.UserNotFoundException (Spec.byId 1))) :=
  ⟨by decide,
   delete_existing_then_get_by_id_not_found [⟨1, "a@x.com", "h1"⟩] 1
     ⟨1, "a@x.com", "h1"⟩ (by decide)⟩

/-- C6: for every update call, the stored entity keeps every field the
payload does not explicitly set: the id is never modified, an unset
password leaves the hashed password unchanged, an unset email leaves the
email unchanged, and entities not matching the id filter are untouched
(exclude-unset semantics). -/
theorem update_unset_fields_unchanged
    (hash : String → String) (db : List User) (user_id : Nat)
    (us : UserUpdate) (u : User)
    (h : repo_get (Spec.byId user_id) db = some u) :
    (UserService.update hash db user_id us).result
        = Except.ok (applyUserUpdate us u) ∧
      (applyUserUpdate us u).id = u.id ∧
      (us.password = none →
        (applyUserUpdate us u).hashed_password = u.hashed_password) ∧
      (us.email = none → (applyUserUpdate us u).email = u.email) ∧
      (UserService.update hash db user_id us).db
        = db.map fun v =>
            if matchesSpec (Spec.byId user_id) v then applyUserUpdate us v
            else v := by
  refine ⟨?_, rfl, fun _ => rfl, fun he => ?_, ?_⟩
  · simp [UserService.update, repo_update, h]
  · simp [applyUserUpdate, he]
  · simp [UserService.update, repo_update, h]

theorem update_unset_fields_unchanged_witness :
    repo_get (Spec.byId 1) [⟨1, "a@x.com", "h1"⟩] = some ⟨1, "a@x.com", "h1"⟩ ∧
      ((UserService.update (fun s => "h:" ++ s) [⟨1, "a@x.com", "h1"⟩] 1
            ⟨none, some "b@x.com"⟩).result
          = Except.ok (applyUserUpdate ⟨none, some "b@x.com"⟩
              ⟨1, "a@x.com", "h1"⟩) ∧
        (applyUserUpdate ⟨none, some "b@x.com"⟩ ⟨1, "a@x.com", "h1"⟩).id = 1 ∧
        ((none : Option String) = none →
          (applyUserUpdate ⟨none, some "b@x.com"⟩
              ⟨1, "a@x.com", "h1"⟩).hashed_password = "h1") ∧
        ((some "b@x.com" : Option String) = none →
          (applyUserUpdate ⟨none, some "b@x.com"⟩
              ⟨1, "a@x.com", "h1"⟩).email = "a@x.com") ∧
        (UserService.update (fun s => "h:" ++ s) [⟨1, "a@x.com", "h1"⟩] 1
            ⟨none, some "b@x.com"⟩).db
          = [(⟨1, "a@x.com", "h1"⟩ : User)].map fun v =>
              if matchesSpec (Spec.byId 1) v
              then applyUserUpdate ⟨none, some "b@x.com"⟩ v else v) :=
  ⟨by decide,
   update_unset_fields_unchanged (fun s => "h:" ++ s) [⟨1, "a@x.com", "h1"⟩] 1
     ⟨none, some "b@x.com"⟩ ⟨1, "a@x.com", "h1"⟩ (by decide)⟩

/-- C9: on an id not present in storage, `delete` raises inside the
transactional scope before the commit call — its trace has no `commit`
event and the durable state is unchanged — whereas `get_by_id` and
`update` commit before performing their absence check, so their traces
show `commit` before the raise. -/
theorem delete_raises_before_commit_others_commit_first
    (hash : String → String) (db : List User) (user_id : Nat) (us : UserUpdate)
    (h : repo_get (Spec.byId user_id) db = none) :
    (UserService.delete db user_id).events
        = [Event.repoDelete (Spec.byId user_id), Event.raised] ∧
      Event.commit ∉ (UserService.delete db user_id).events ∧
      (UserService.delete db user_id).db = db ∧
      (UserService.get_by_id db user_id).events
        = [Event.repoGet (Spec.byId user_id), Event.commit, Event.raised] ∧
      (UserService.update hash db user_id us).events
        = [Event.repoUpdate (Spec.byId user_id), Event.commit, Event.raised] := by
  refine ⟨?_, ?_, ?_, ?_, ?_⟩ <;>
    simp [UserService.delete, UserService.get_by_id, UserService.update,
      repo_delete, repo_update, h]

theorem delete_raises_before_commit_others_commit_first_witness :
    repo_get (Spec.byId 7) [⟨1, "a@x.com", "h1"⟩] = none ∧
      ((UserService.delete [⟨1, "a@x.com", "h1"⟩] 7).events
          = [Event.repoDelete (Spec.byId 7), Event.raised] ∧
        Event.commit ∉ (UserService.delete [⟨1, "a@x.com", "h1"⟩] 7).events ∧
        (UserService.delete [⟨1, "a@x.com", "h1"⟩] 7).db
          = [⟨1, "a@x.com", "h1"⟩] ∧
        (UserService.get_by_id [⟨1, "a@x.com", "h1"⟩] 7).events
          = [Event.repoGet (Spec.byId 7), Event.commit, Event.raised] ∧
        (UserService.update (fun s => "h:" ++ s) [⟨1, "a@x.com", "h1"⟩] 7
            ⟨some "newpw", none⟩).events
          = [Event.repoUpdate (Spec.byId 7), Event.commit, Event.raised]) :=
  ⟨by decide,
   delete_raises_before_commit_others_commit_first (fun s => "h:" ++ s)
     [⟨1, "a@x.com", "h1"⟩] 7 ⟨some "newpw", none⟩ (by decide)⟩
